import Mathlib

/-!
# go-discoverd: the resolving dialer of `http_client.go`

A shallow embedding of `dialer.Dial`, `dialer.getSet`, `dialer.createSet` and
`newDialer`, followed by the properties of the dial-time name resolution.

Modelling decisions:

* Go strings are rendered as Lean strings. The only separator the source uses
  is the ASCII colon, so splitting on characters and splitting on bytes agree.
* A `ServiceSet` interface value is either `nil` or a reference to a live set;
  references are natural numbers. The set itself lives outside the dialer, so
  its address snapshot is read from the `World`.
* The collaborators (`Client.NewServiceSet`, `ServiceSet.Addrs`, `rand.Intn`
  and the connector stored in `dialer.dial`) are not pure. During one `Dial`
  each of them is called at most once, so a `World` records what each call
  would return at that moment (for `rand.Intn`, the draw of the random source);
  successive `Dial` calls receive successive worlds.
* The `sync.RWMutex` is not a field of the model. `Dial`, `getSet` and
  `createSet` are the sequential semantics of the three methods. For concurrent
  callers the mutex is rendered by its effect: every access to `d.sets` lies
  between `RLock`/`RUnlock` (the single read in `getSet`) or between
  `Lock`/`Unlock` (the whole body of `createSet`), the write section excludes
  every other section and the read section only reads, so an execution of
  several goroutines is a schedule of these two blocks, each run as one step
  (`Sys.step`).
* Every call to a collaborator is appended to a trace of `Event`s, so that
  "the connector is not invoked" and "the registry is asked once" are
  statements about the returned trace.
-/

namespace Discoverd

/-! ## Go standard library: `strings.SplitN` -/

/-- Go `strings.HasPrefix`, on character lists. -/
def startsWith : List Char → List Char → Bool
  | _, [] => true
  | [], _ :: _ => false
  | c :: s, p :: ps => c == p && startsWith s ps

/-- Go `strings.Index`: position of the first occurrence of `sep` in `s`;
`none` stands for the result `-1`. -/
def Index : List Char → List Char → Option Nat
  | [], sep => if startsWith [] sep then some 0 else none
  | c :: s, sep =>
    if startsWith (c :: s) sep then some 0 else (Index s sep).map (· + 1)

/-- Go `strings.explode`: the first `n - 1` characters as one-character pieces,
then the remainder; `n` is capped by the number of characters. -/
def explode : List Char → Nat → List (List Char)
  | [], _ => []
  | _ :: _, 0 => []
  | c :: s, 1 => [c :: s]
  | c :: s, n + 2 => [c] :: explode s (n + 1)

/-- The loop of Go `strings.genSplit` with `sepSave = 0`: at most `k` cuts at
occurrences of `sep`, the last piece being the unsplit remainder. -/
def genSplitLoop (sep : List Char) : Nat → List Char → List (List Char)
  | 0, s => [s]
  | k + 1, s =>
    match Index s sep with
    | none => [s]
    | some m => s.take m :: genSplitLoop sep k (s.drop (m + sep.length))

/-- Go `strings.SplitN(s, sep, n)` for a count `n ≥ 0`: `n = 0` gives the empty
slice, an empty separator explodes the string, and otherwise `n` is capped by
`len(s) + 1` and the string is cut at most `n - 1` times. -/
def SplitN (s sep : String) (n : Nat) : List String :=
  if n = 0 then []
  else if sep.data = [] then (explode s.data n).map String.mk
  else
    let n1 := if n > s.utf8ByteSize + 1 then s.utf8ByteSize + 1 else n
    (genSplitLoop sep.data (n1 - 1) s.data).map String.mk

/-! ## Data model -/

/-- Go `error` values that can reach the caller of `Dial`: the package variable
`ErrNoServices`, or any other error value, identified by a code. -/
inductive Error where
  | ErrNoServices
  | other (code : Nat)
  deriving DecidableEq, Repr

/-- A `net.Conn` handle. -/
abbrev Conn := Nat

/-- A `*Client` handle. -/
abbrev Client := Nat

/-- A `ServiceSet` interface value: `none` is the nil interface, `some r` a
reference to the live set `r`. -/
abbrev ServiceSet := Option Nat

/-- A non-nil `DialFunc` value: `net.Dial` or a caller-supplied function. -/
inductive DialFunc where
  | netDial
  | fn (id : Nat)
  deriving DecidableEq, Repr

/-- The Go map `map[string]ServiceSet`, as an association list. -/
abbrev SetMap := List (String × ServiceSet)

/-- Go `v, ok := m[k]`: `some v` when the key is present. -/
def mapGet : SetMap → String → Option ServiceSet
  | [], _ => none
  | (k1, v) :: m, k => if k1 = k then some v else mapGet m k

/-- Go `m[k]`: the stored value, or the zero value `nil` when the key is
absent. -/
def mapIndex (m : SetMap) (k : String) : ServiceSet :=
  match mapGet m k with
  | some v => v
  | none => none

/-- Go `m[k] = v`: overwrite the entry when the key is present, add one
otherwise. -/
def mapSet : SetMap → String → ServiceSet → SetMap
  | [], k, v => [(k, v)]
  | (k1, v1) :: m, k, v => if k1 = k then (k1, v) :: m else (k1, v1) :: mapSet m k v

/-- The `dialer` struct, without its mutex. -/
structure dialer where
  c : Client
  dial : DialFunc
  sets : SetMap
  deriving DecidableEq, Repr

/-- What the collaborators would return if called now. -/
structure World where
  /-- The pair returned by `c.NewServiceSet(name)`. -/
  NewServiceSet : Client → String → ServiceSet × Option Error
  /-- The snapshot returned by `set.Addrs()` for the live set `r`. -/
  Addrs : Nat → List String
  /-- The draw of the random source that decides the result of `rand.Intn`. -/
  draw : Nat
  /-- The pair returned by calling the connector `f` on `(network, addr)`. -/
  call : DialFunc → String → String → Option Conn × Option Error

/-- Go `rand.Intn(n)`: it panics (`none`) when `n ≤ 0` and otherwise returns a
number of the half-open interval `[0, n)`. Which one is decided by the random
source; every number `i < n` is the result for the draw `i`. -/
def Intn (draw n : Nat) : Option Nat :=
  if n = 0 then none else some (draw % n)

/-- A call made to a collaborator. -/
inductive Event where
  | lookup (c : Client) (name : String)
  | addrs (set : Nat)
  | intn (n : Nat)
  | connect (f : DialFunc) (network addr : String)
  deriving DecidableEq, Repr

/-- The way a call of `Dial` ends: it returns a `(net.Conn, error)` pair, or
it panics. -/
inductive Outcome where
  | ret (conn : Option Conn) (err : Option Error)
  | panic
  deriving DecidableEq, Repr

/-- The result of `getSet` and `createSet`: the returned pair, the dialer
afterwards and the calls made. -/
structure SetResult where
  set : ServiceSet
  err : Option Error
  d : dialer
  trace : List Event
  deriving DecidableEq, Repr

/-- The result of `Dial`: its outcome, the dialer afterwards and the calls
made. -/
structure DialResult where
  out : Outcome
  d : dialer
  trace : List Event
  deriving DecidableEq, Repr

/-! ## The source functions -/

/-- Go `newDialer(c, f)`: an empty cache, and `net.Dial` when `f` is nil. -/
def newDialer (c : Client) (f : Option DialFunc) : dialer :=
  let d : dialer := { c := c, sets := [], dial := f.getD DialFunc.netDial }
  d

/-- Go `dialer.createSet`: re-check the cache, otherwise ask the registry and
store the set when the lookup has no error. -/
def dialer.createSet (w : World) (d : dialer) (name : String) : SetResult :=
  match mapGet d.sets name with
  | some set => { set := set, err := none, d := d, trace := [] }
  | none =>
    let r := w.NewServiceSet d.c name
    match r.2 with
    | some err => { set := none, err := some err, d := d, trace := [Event.lookup d.c name] }
    | none =>
      { set := r.1, err := none, d := { d with sets := mapSet d.sets name r.1 },
        trace := [Event.lookup d.c name] }

/-- Go `dialer.getSet`: return the cached set, or go to `createSet` when the
map yields nil. -/
def dialer.getSet (w : World) (d : dialer) (name : String) : SetResult :=
  let set := mapIndex d.sets name
  if set = none then d.createSet w name
  else { set := set, err := none, d := d, trace := [] }

/-- Go `dialer.Dial`. The panics of Go are explicit: indexing a slice out of
range and calling a method on a nil interface. -/
def dialer.Dial (w : World) (d : dialer) (network addr : String) : DialResult :=
  match (SplitN addr ":" 2)[0]? with
  | none => { out := Outcome.panic, d := d, trace := [] }
  | some name =>
    let r := d.getSet w name
    match r.err with
    | some err => { out := Outcome.ret none (some err), d := r.d, trace := r.trace }
    | none =>
      match r.set with
      | none => { out := Outcome.panic, d := r.d, trace := r.trace }
      | some s =>
        let addrs := w.Addrs s
        if addrs.length = 0 then
          { out := Outcome.ret none (some Error.ErrNoServices), d := r.d,
            trace := r.trace ++ [Event.addrs s] }
        else
          match Intn w.draw addrs.length with
          | none =>
            { out := Outcome.panic, d := r.d,
              trace := r.trace ++ [Event.addrs s, Event.intn addrs.length] }
          | some i =>
            match addrs[i]? with
            | none =>
              { out := Outcome.panic, d := r.d,
                trace := r.trace ++ [Event.addrs s, Event.intn addrs.length] }
            | some a =>
              let res := w.call r.d.dial network a
              { out := Outcome.ret res.1 res.2, d := r.d,
                trace := r.trace ++
                  [Event.addrs s, Event.intn addrs.length, Event.connect r.d.dial network a] }

/-- A sequence of `Dial` calls made one after the other, each in its own world,
threading the dialer through and collecting the traces. -/
def runDials : dialer → List (World × String × String) → dialer × List Event
  | d, [] => (d, [])
  | d, (w, network, addr) :: rest =>
    let r := d.Dial w network addr
    let q := runDials r.d rest
    (q.1, r.trace ++ q.2)

/-- The number of registry lookups for `name` in a trace. -/
def lookupCount (name : String) : List Event → Nat
  | [] => 0
  | Event.lookup _ n :: t => (if n = name then 1 else 0) + lookupCount name t
  | _ :: t => lookupCount name t

/-- The connector invocations in a trace, in order. -/
def connects : List Event → List Event
  | [] => []
  | Event.connect f network addr :: t => Event.connect f network addr :: connects t
  | _ :: t => connects t

/-! ## Concurrent callers of `getSet` -/

/-- Where a goroutine that called `getSet(name)` stands: before the read
section, after a read that found nil and before `createSet`, or returned with
the pair `(set, err)`. -/
inductive Phase where
  | start
  | waiting
  | returned (set : ServiceSet) (err : Option Error)
  deriving DecidableEq, Repr

/-- The dialer shared by the goroutines, the phase of every goroutine (they
are numbered) and the calls made to the collaborators so far. -/
structure Sys where
  d : dialer
  phase : Nat → Phase
  trace : List Event

/-- The state in which no goroutine has begun its `getSet`. -/
def Sys.init (d : dialer) : Sys :=
  { d := d, phase := fun _ => Phase.start, trace := [] }

/-- One step of goroutine `i` in the world `w`. At `start` it runs the read
section of `getSet` (lines 58-60) and then returns the set or, on nil, goes on
to `createSet`; at `waiting` it runs the whole of `createSet` under the
exclusive lock; a goroutine that has returned does nothing. -/
def Sys.step (name : String) (σ : Sys) (i : Nat) (w : World) : Sys :=
  match σ.phase i with
  | Phase.start =>
    let set := mapIndex σ.d.sets name
    if set = none then
      { σ with phase := fun j => if j = i then Phase.waiting else σ.phase j }
    else
      { σ with phase := fun j => if j = i then Phase.returned set none else σ.phase j }
  | Phase.waiting =>
    let r := σ.d.createSet w name
    { d := r.d,
      phase := fun j => if j = i then Phase.returned r.set r.err else σ.phase j,
      trace := σ.trace ++ r.trace }
  | Phase.returned _ _ => σ

/-- An interleaving: the schedule names, step by step, the goroutine that runs
and the world it runs in. -/
def Sys.run (name : String) : Sys → List (Nat × World) → Sys
  | σ, [] => σ
  | σ, (i, w) :: rest => Sys.run name (σ.step name i w) rest

/-- How far a goroutine has come: `0` at `start`, `1` at `waiting`, `2` once
returned. -/
def Phase.rank : Phase → Nat
  | Phase.start => 0
  | Phase.waiting => 1
  | Phase.returned _ _ => 2

/-- The relation between cache, trace and returned goroutines that every step
keeps, for callers of `getSet(name)` on a dialer whose client is `c`: either
the name has no entry, the registry was not asked for it and nobody has
returned; or the name has the entry `v`, the registry was asked once and
everybody who returned holds `v` and no error. -/
def Sys.Inv (c : Client) (name : String) (σ : Sys) : Prop :=
  σ.d.c = c ∧
  ((mapGet σ.d.sets name = none ∧ lookupCount name σ.trace = 0 ∧
      ∀ i set err, σ.phase i ≠ Phase.returned set err) ∨
    ∃ v, mapGet σ.d.sets name = some v ∧ lookupCount name σ.trace = 1 ∧
      ∀ i set err, σ.phase i = Phase.returned set err → set = v ∧ err = none)

/-! ## Concrete worlds used to evaluate the definitions -/

/-- A world whose registry knows the set `7` for every name, whose set `7`
has two members and whose connector succeeds with connection `1`. -/
def worldTwo : World where
  NewServiceSet := fun _ _ => (some 7, none)
  Addrs := fun _ => ["10.0.0.1:80", "10.0.0.2:80"]
  draw := 5
  call := fun _ _ _ => (some 1, none)

/-- A world whose registry knows the set `7` for every name while the set has
no member. -/
def worldEmpty : World where
  NewServiceSet := fun _ _ => (some 7, none)
  Addrs := fun _ => []
  draw := 0
  call := fun _ _ _ => (some 1, none)

/-- A world whose registry lookup fails with the error of code `5`. -/
def worldDown : World where
  NewServiceSet := fun _ _ => (none, some (Error.other 5))
  Addrs := fun _ => []
  draw := 0
  call := fun _ _ _ => (none, some (Error.other 6))

/-- A world in which the set `7` has one member and the connector succeeds
with connection `3`; its registry would fail if asked. -/
def worldOne : World where
  NewServiceSet := fun _ _ => (none, some (Error.other 9))
  Addrs := fun _ => ["127.0.0.1:4000"]
  draw := 0
  call := fun _ _ _ => (some 3, none)

/-! ## Splitting the target -/

theorem startsWith_nil (s : List Char) : startsWith s [] = true := by
  cases s <;> rfl

theorem startsWith_single (c : Char) (s : List Char) :
    startsWith s [c] = true ↔ ∃ t, s = c :: t := by
  cases s with
  | nil =>
    constructor
    · intro h
      exact absurd h (by simp [startsWith])
    · rintro ⟨t, ht⟩
      exact absurd ht (by simp)
  | cons a t =>
    show (a == c && startsWith t []) = true ↔ _
    rw [startsWith_nil, Bool.and_true, beq_iff_eq]
    constructor
    · intro h
      exact ⟨t, by rw [h]⟩
    · rintro ⟨u, hu⟩
      exact (List.cons.inj hu).1

theorem Index_single_none (c : Char) (s : List Char) (h : Index s [c] = none) : c ∉ s := by
  induction s with
  | nil => simp
  | cons a t ih =>
    unfold Index at h
    by_cases hp : startsWith (a :: t) [c] = true
    · simp [hp] at h
    · simp only [hp, Bool.false_eq_true, if_false, Option.map_eq_none'] at h
      have hne : a ≠ c := by
        intro hac
        exact hp ((startsWith_single c (a :: t)).2 ⟨t, by rw [hac]⟩)
      simp only [List.mem_cons, not_or]
      exact ⟨fun e => hne e.symm, ih h⟩

theorem Index_single_some (c : Char) (s : List Char) (m : Nat) (h : Index s [c] = some m) :
    c ∉ s.take m ∧ s = s.take m ++ c :: s.drop (m + 1) := by
  induction s generalizing m with
  | nil => simp [Index, startsWith] at h
  | cons a t ih =>
    unfold Index at h
    by_cases hp : startsWith (a :: t) [c] = true
    · simp only [hp, if_true, Option.some.injEq] at h
      obtain ⟨u, hu⟩ := (startsWith_single c (a :: t)).1 hp
      subst h
      simp only [List.cons.injEq] at hu
      simp [hu.1]
    · simp only [hp, Bool.false_eq_true, if_false, Option.map_eq_some'] at h
      obtain ⟨k, hk, rfl⟩ := h
      have hne : a ≠ c := by
        intro hac
        exact hp ((startsWith_single c (a :: t)).2 ⟨t, by rw [hac]⟩)
      obtain ⟨h1, h2⟩ := ih k hk
      refine ⟨?_, ?_⟩
      · simp only [List.take_succ_cons, List.mem_cons, not_or]
        exact ⟨fun e => hne e.symm, h1⟩
      · simp only [List.take_succ_cons, List.drop_succ_cons, List.cons_append, List.cons.injEq,
          true_and]
        exact h2

theorem utf8ByteSize_go_pos (c : Char) (t : List Char) : 0 < String.utf8ByteSize.go (c :: t) := by
  have := Char.utf8Size_pos c
  simp only [String.utf8ByteSize.go]
  omega

theorem SplitN_colon_cons (a : Char) (t : List Char) :
    SplitN ⟨a :: t⟩ ":" 2 = (genSplitLoop [':'] 1 (a :: t)).map String.mk := by
  have hsep : (":" : String).data = [':'] := rfl
  have hpos := utf8ByteSize_go_pos a t
  have hcap : ¬ (2 > String.utf8ByteSize ⟨a :: t⟩ + 1) := by
    simp only [String.utf8ByteSize]
    omega
  unfold SplitN
  rw [if_neg (by decide), if_neg (by rw [hsep]; simp)]
  simp only [hsep, if_neg hcap]

/-- The head of `SplitN addr ":" 2`, described through the first colon. -/
theorem SplitN_colon_head (addr : String) :
    ∃ name : String, (SplitN addr ":" 2)[0]? = some name ∧ ':' ∉ name.data ∧
      ((':' ∉ addr.data ∧ name = addr) ∨ ∃ rest : String, addr = name ++ ":" ++ rest) := by
  have hsep : (":" : String).data = [':'] := rfl
  obtain ⟨l⟩ := addr
  cases l with
  | nil =>
    refine ⟨"", by decide, by decide, Or.inl ⟨by simp, rfl⟩⟩
  | cons a t =>
    rw [SplitN_colon_cons]
    cases hi : Index (a :: t) [':'] with
    | none =>
      refine ⟨⟨a :: t⟩, ?_, Index_single_none _ _ hi, Or.inl ⟨Index_single_none _ _ hi, rfl⟩⟩
      simp [genSplitLoop, hi]
    | some m =>
      obtain ⟨h1, h2⟩ := Index_single_some _ _ _ hi
      refine ⟨⟨(a :: t).take m⟩, ?_, h1, Or.inr ⟨⟨(a :: t).drop (m + 1)⟩, ?_⟩⟩
      · simp [genSplitLoop, hi]
      · apply String.ext
        simp only [String.data_append, hsep]
        simpa using h2

/-! ## The cache -/

theorem mapSet_absent (m : SetMap) (k : String) (v : ServiceSet) (h : mapGet m k = none) :
    mapSet m k v = m ++ [(k, v)] := by
  induction m with
  | nil => rfl
  | cons p m ih =>
    obtain ⟨k1, v1⟩ := p
    by_cases hk : k1 = k
    · simp [mapGet, hk] at h
    · simp only [mapGet, hk, if_false] at h
      simp [mapSet, hk, ih h]

theorem mapGet_append_of_some (m m2 : SetMap) (k : String) (v : ServiceSet)
    (h : mapGet m k = some v) : mapGet (m ++ m2) k = some v := by
  induction m with
  | nil => simp [mapGet] at h
  | cons p m ih =>
    obtain ⟨k1, v1⟩ := p
    by_cases hk : k1 = k
    · simpa [mapGet, hk] using h
    · simp only [mapGet, hk, if_false] at h
      simpa [mapGet, hk] using ih h

theorem mapGet_append_single (m : SetMap) (k : String) (v : ServiceSet)
    (h : mapGet m k = none) : mapGet (m ++ [(k, v)]) k = some v := by
  induction m with
  | nil => simp [mapGet]
  | cons p m ih =>
    obtain ⟨k1, v1⟩ := p
    by_cases hk : k1 = k
    · simp [mapGet, hk] at h
    · simp only [mapGet, hk, if_false] at h
      simpa [mapGet, hk] using ih h

theorem createSet_hit (w : World) (d : dialer) (name : String) (set : ServiceSet)
    (h : mapGet d.sets name = some set) :
    d.createSet w name = { set := set, err := none, d := d, trace := [] } := by
  simp only [dialer.createSet, h]

theorem createSet_miss_err (w : World) (d : dialer) (name : String) (e : Error)
    (h : mapGet d.sets name = none) (he : (w.NewServiceSet d.c name).2 = some e) :
    d.createSet w name =
      { set := none, err := some e, d := d, trace := [Event.lookup d.c name] } := by
  simp only [dialer.createSet, h, he]

theorem createSet_miss_ok (w : World) (d : dialer) (name : String)
    (h : mapGet d.sets name = none) (he : (w.NewServiceSet d.c name).2 = none) :
    d.createSet w name =
      { set := (w.NewServiceSet d.c name).1, err := none,
        d := { d with sets := d.sets ++ [(name, (w.NewServiceSet d.c name).1)] },
        trace := [Event.lookup d.c name] } := by
  simp only [dialer.createSet, h, he, mapSet_absent _ _ _ h]

theorem getSet_cached (w : World) (d : dialer) (name : String) (s : Nat)
    (h : mapGet d.sets name = some (some s)) :
    d.getSet w name = { set := some s, err := none, d := d, trace := [] } := by
  simp [dialer.getSet, mapIndex, h]

theorem getSet_cached_nil (w : World) (d : dialer) (name : String)
    (h : mapGet d.sets name = some none) :
    d.getSet w name = { set := none, err := none, d := d, trace := [] } := by
  simp [dialer.getSet, mapIndex, h, createSet_hit w d name none h]

theorem getSet_miss (w : World) (d : dialer) (name : String)
    (h : mapGet d.sets name = none) : d.getSet w name = d.createSet w name := by
  simp [dialer.getSet, mapIndex, h]

/-- The four ways `getSet` can go. -/
theorem getSet_cases (w : World) (d : dialer) (name : String) :
    (∃ s, mapGet d.sets name = some (some s) ∧
      d.getSet w name = { set := some s, err := none, d := d, trace := [] }) ∨
    (mapGet d.sets name = some none ∧
      d.getSet w name = { set := none, err := none, d := d, trace := [] }) ∨
    (∃ e, mapGet d.sets name = none ∧ (w.NewServiceSet d.c name).2 = some e ∧
      d.getSet w name =
        { set := none, err := some e, d := d, trace := [Event.lookup d.c name] }) ∨
    (mapGet d.sets name = none ∧ (w.NewServiceSet d.c name).2 = none ∧
      d.getSet w name =
        { set := (w.NewServiceSet d.c name).1, err := none,
          d := { d with sets := d.sets ++ [(name, (w.NewServiceSet d.c name).1)] },
          trace := [Event.lookup d.c name] }) := by
  cases h : mapGet d.sets name with
  | some v =>
    cases v with
    | some s => exact Or.inl ⟨s, rfl, getSet_cached w d name s h⟩
    | none => exact Or.inr (Or.inl ⟨rfl, getSet_cached_nil w d name h⟩)
  | none =>
    rw [getSet_miss w d name h]
    cases he : (w.NewServiceSet d.c name).2 with
    | some e => exact Or.inr (Or.inr (Or.inl ⟨e, rfl, rfl, createSet_miss_err w d name e h he⟩))
    | none => exact Or.inr (Or.inr (Or.inr ⟨rfl, rfl, createSet_miss_ok w d name h he⟩))

theorem getSet_dial (w : World) (d : dialer) (name : String) :
    (d.getSet w name).d.dial = d.dial ∧ (d.getSet w name).d.c = d.c := by
  rcases getSet_cases w d name with ⟨s, _, h⟩ | ⟨_, h⟩ | ⟨e, _, _, h⟩ | ⟨_, _, h⟩ <;>
    rw [h] <;> exact ⟨rfl, rfl⟩

theorem getSet_trace (w : World) (d : dialer) (name : String) :
    (d.getSet w name).trace = [] ∨ (d.getSet w name).trace = [Event.lookup d.c name] := by
  rcases getSet_cases w d name with ⟨s, _, h⟩ | ⟨_, h⟩ | ⟨e, _, _, h⟩ | ⟨_, _, h⟩ <;>
    rw [h] <;> simp

theorem getSet_sets (w : World) (d : dialer) (name : String) :
    (d.getSet w name).d = d ∨
      (mapGet d.sets name = none ∧ ∃ v, (d.getSet w name).d = { d with sets := d.sets ++ [(name, v)] }) := by
  rcases getSet_cases w d name with ⟨s, _, h⟩ | ⟨_, h⟩ | ⟨e, _, _, h⟩ | ⟨hm, _, h⟩
  · rw [h]; exact Or.inl rfl
  · rw [h]; exact Or.inl rfl
  · rw [h]; exact Or.inl rfl
  · rw [h]; exact Or.inr ⟨hm, _, rfl⟩

/-! ## `Dial` -/

theorem connects_append (a b : List Event) : connects (a ++ b) = connects a ++ connects b := by
  induction a with
  | nil => rfl
  | cons e t ih => cases e <;> simp [connects, ih]

theorem lookupCount_append (name : String) (a b : List Event) :
    lookupCount name (a ++ b) = lookupCount name a + lookupCount name b := by
  induction a with
  | nil => simp [lookupCount]
  | cons e t ih => cases e <;> simp [lookupCount, ih, Nat.add_assoc]

theorem connects_getSet (w : World) (d : dialer) (name : String) :
    connects (d.getSet w name).trace = [] := by
  rcases getSet_trace w d name with h | h <;> rw [h] <;> rfl

/-- The state and the calls of `Dial` when the split yields `name`: the state
is the one `getSet` leaves, and the trace is the trace of `getSet` followed by
calls that are not registry lookups. -/
theorem Dial_state (w : World) (d : dialer) (network addr name : String)
    (hname : (SplitN addr ":" 2)[0]? = some name) :
    (d.Dial w network addr).d = (d.getSet w name).d ∧
    ∃ rest, (d.Dial w network addr).trace = (d.getSet w name).trace ++ rest ∧
      ∀ n, lookupCount n rest = 0 := by
  simp only [dialer.Dial, hname]
  cases he : (d.getSet w name).err with
  | some e => exact ⟨rfl, [], by simp, fun _ => rfl⟩
  | none =>
    cases hs : (d.getSet w name).set with
    | none => exact ⟨rfl, [], by simp, fun _ => rfl⟩
    | some s =>
      simp only
      split
      · exact ⟨rfl, _, rfl, fun _ => rfl⟩
      · split
        · exact ⟨rfl, _, rfl, fun _ => rfl⟩
        · split
          · exact ⟨rfl, _, rfl, fun _ => rfl⟩
          · exact ⟨rfl, _, rfl, fun _ => rfl⟩

/-- The outcome and the calls of `Dial` when `getSet` yields the set `s` and
its snapshot is empty. -/
theorem Dial_empty (w : World) (d : dialer) (network addr name : String) (s : Nat)
    (hname : (SplitN addr ":" 2)[0]? = some name)
    (hset : (d.getSet w name).set = some s) (herr : (d.getSet w name).err = none)
    (hempty : w.Addrs s = []) :
    d.Dial w network addr =
      { out := Outcome.ret none (some Error.ErrNoServices), d := (d.getSet w name).d,
        trace := (d.getSet w name).trace ++ [Event.addrs s] } := by
  simp [dialer.Dial, hname, hset, herr, hempty]

theorem draw_lt (w : World) (s : Nat) (hne : w.Addrs s ≠ []) :
    w.draw % (w.Addrs s).length < (w.Addrs s).length :=
  Nat.mod_lt _ (List.length_pos.2 hne)

/-- The outcome and the calls of `Dial` when `getSet` yields the set `s` and
its snapshot is not empty. -/
theorem Dial_connect (w : World) (d : dialer) (network addr name : String) (s : Nat)
    (hname : (SplitN addr ":" 2)[0]? = some name)
    (hset : (d.getSet w name).set = some s) (herr : (d.getSet w name).err = none)
    (hne : w.Addrs s ≠ []) :
    d.Dial w network addr =
      { out := Outcome.ret
          (w.call d.dial network
            ((w.Addrs s).get ⟨w.draw % (w.Addrs s).length, draw_lt w s hne⟩)).1
          (w.call d.dial network
            ((w.Addrs s).get ⟨w.draw % (w.Addrs s).length, draw_lt w s hne⟩)).2,
        d := (d.getSet w name).d,
        trace := (d.getSet w name).trace ++
          [Event.addrs s, Event.intn (w.Addrs s).length,
            Event.connect d.dial network
              ((w.Addrs s).get ⟨w.draw % (w.Addrs s).length, draw_lt w s hne⟩)] } := by
  have hlen : (w.Addrs s).length ≠ 0 := Nat.pos_iff_ne_zero.1 (List.length_pos.2 hne)
  have hget : (w.Addrs s)[w.draw % (w.Addrs s).length]? =
      some ((w.Addrs s).get ⟨w.draw % (w.Addrs s).length, draw_lt w s hne⟩) := by
    simp [List.getElem?_eq_getElem (draw_lt w s hne)]
  simp only [dialer.Dial, hname, hset, herr, hlen, if_false, Intn, hget,
    (getSet_dial w d name).1]

theorem getSet_trace_miss (w : World) (d : dialer) (name : String)
    (h : mapGet d.sets name = none) :
    (d.getSet w name).trace = [Event.lookup d.c name] := by
  rcases getSet_cases w d name with ⟨s, h1, _⟩ | ⟨h1, _⟩ | ⟨e, _, _, h2⟩ | ⟨_, _, h2⟩
  · rw [h] at h1; cases h1
  · rw [h] at h1; cases h1
  · rw [h2]
  · rw [h2]

theorem getSet_trace_hit (w : World) (d : dialer) (name : String) (v : ServiceSet)
    (h : mapGet d.sets name = some v) : (d.getSet w name).trace = [] := by
  rcases getSet_cases w d name with ⟨s, _, h2⟩ | ⟨_, h2⟩ | ⟨e, h1, _, _⟩ | ⟨h1, _, _⟩
  · rw [h2]
  · rw [h2]
  · rw [h] at h1; cases h1
  · rw [h] at h1; cases h1

/-- After `getSet` yields a set, the next call `Dial` makes is `Addrs` on that
set. -/
theorem Dial_reads_set (w : World) (d : dialer) (network addr name : String) (s : Nat)
    (hname : (SplitN addr ":" 2)[0]? = some name)
    (hset : (d.getSet w name).set = some s) (herr : (d.getSet w name).err = none) :
    ∃ rest, (d.Dial w network addr).trace = (d.getSet w name).trace ++ Event.addrs s :: rest := by
  simp only [dialer.Dial, hname, hset, herr]
  split
  · exact ⟨[], rfl⟩
  · split
    · exact ⟨_, rfl⟩
    · split
      · exact ⟨_, rfl⟩
      · exact ⟨_, rfl⟩

theorem Dial_preserves (w : World) (d : dialer) (network addr k : String) (v : ServiceSet)
    (h : mapGet d.sets k = some v) : mapGet (d.Dial w network addr).d.sets k = some v := by
  obtain ⟨name, hname, _⟩ := SplitN_colon_head addr
  rw [(Dial_state w d network addr name hname).1]
  rcases getSet_sets w d name with h1 | ⟨_, u, h1⟩
  · rw [h1]; exact h
  · rw [h1]; exact mapGet_append_of_some _ _ _ _ h

theorem Dial_client (w : World) (d : dialer) (network addr : String) :
    (d.Dial w network addr).d.c = d.c ∧ (d.Dial w network addr).d.dial = d.dial := by
  obtain ⟨name, hname, _⟩ := SplitN_colon_head addr
  rw [(Dial_state w d network addr name hname).1]
  exact ⟨(getSet_dial w d name).2, (getSet_dial w d name).1⟩

theorem Dial_no_lookup (w : World) (d : dialer) (network addr name : String) (v : ServiceSet)
    (h : mapGet d.sets name = some v) : lookupCount name (d.Dial w network addr).trace = 0 := by
  obtain ⟨n1, hn1, _⟩ := SplitN_colon_head addr
  obtain ⟨_, rest, htr, hrest⟩ := Dial_state w d network addr n1 hn1
  rw [htr, lookupCount_append, hrest, Nat.add_zero]
  cases hm : mapGet d.sets n1 with
  | some u => rw [getSet_trace_hit w d n1 u hm]; rfl
  | none =>
    rw [getSet_trace_miss w d n1 hm]
    have hne : n1 ≠ name := by
      intro e
      rw [e, h] at hm
      cases hm
    simp [lookupCount, hne]

theorem runDials_preserves (calls : List (World × String × String)) (d : dialer) (k : String)
    (v : ServiceSet) (h : mapGet d.sets k = some v) :
    mapGet (runDials d calls).1.sets k = some v := by
  induction calls generalizing d with
  | nil => exact h
  | cons call rest ih =>
    obtain ⟨w, network, addr⟩ := call
    exact ih _ (Dial_preserves w d network addr k v h)

theorem runDials_no_lookup (calls : List (World × String × String)) (d : dialer) (name : String)
    (v : ServiceSet) (h : mapGet d.sets name = some v) :
    lookupCount name (runDials d calls).2 = 0 := by
  induction calls generalizing d with
  | nil => rfl
  | cons call rest ih =>
    obtain ⟨w, network, addr⟩ := call
    show lookupCount name ((d.Dial w network addr).trace ++ _) = 0
    rw [lookupCount_append, Dial_no_lookup w d network addr name v h,
      ih _ (Dial_preserves w d network addr name v h)]

theorem runDials_client (calls : List (World × String × String)) (d : dialer) :
    (runDials d calls).1.c = d.c ∧ (runDials d calls).1.dial = d.dial := by
  induction calls generalizing d with
  | nil => exact ⟨rfl, rfl⟩
  | cons call rest ih =>
    obtain ⟨w, network, addr⟩ := call
    have h1 := ih (d.Dial w network addr).d
    have h2 := Dial_client w d network addr
    exact ⟨h1.1.trans h2.1, h1.2.trans h2.2⟩

/-- A first `Dial` whose registry lookup yields the set `s` leaves `s` in the
cache under the name and asks the registry once. -/
theorem Dial_first (w : World) (d : dialer) (network addr name : String) (s : Nat)
    (hname : (SplitN addr ":" 2)[0]? = some name)
    (hmiss : mapGet d.sets name = none)
    (hlook : w.NewServiceSet d.c name = (some s, none)) :
    (d.getSet w name).set = some s ∧ (d.getSet w name).err = none ∧
    mapGet (d.Dial w network addr).d.sets name = some (some s) ∧
    lookupCount name (d.Dial w network addr).trace = 1 := by
  have he : (w.NewServiceSet d.c name).2 = none := by rw [hlook]
  have hg := (getSet_miss w d name hmiss).trans (createSet_miss_ok w d name hmiss he)
  rw [hlook] at hg
  obtain ⟨hd, rest, htr, hrest⟩ := Dial_state w d network addr name hname
  refine ⟨by rw [hg], by rw [hg], ?_, ?_⟩
  · rw [hd, hg]
    exact mapGet_append_single _ _ _ hmiss
  · rw [htr, lookupCount_append, hrest, hg]
    simp [lookupCount]

/-- A name without a colon is its own service name. -/
theorem SplitN_name_self (name : String) (h : ':' ∉ name.data) :
    (SplitN name ":" 2)[0]? = some name := by
  obtain ⟨n1, hn1, _, hcase⟩ := SplitN_colon_head name
  rcases hcase with ⟨_, he⟩ | ⟨rest, he⟩
  · rw [hn1, he]
  · exfalso
    apply h
    rw [he]
    simp [String.data_append]

/-- The target enters `Dial` only through the service name split from it. -/
theorem Dial_depends_on_name (w : World) (d : dialer) (network addr name : String)
    (hname : (SplitN addr ":" 2)[0]? = some name) (hno : ':' ∉ name.data) :
    d.Dial w network addr = d.Dial w network name := by
  simp only [dialer.Dial, hname, SplitN_name_self name hno]

theorem lookupCount_pos_of_mem (c : Client) (n : String) (t : List Event)
    (h : Event.lookup c n ∈ t) : 0 < lookupCount n t := by
  induction t with
  | nil => cases h
  | cons e t ih =>
    rcases List.mem_cons.1 h with h1 | h1
    · rw [← h1]
      simp [lookupCount]
    · have := ih h1
      cases e <;> simp only [lookupCount] <;> omega

/-- Every registry lookup of a `Dial` is made by the client of the dialer, for
the service name split from the target. -/
theorem Dial_lookups (w : World) (d : dialer) (network addr name : String)
    (hname : (SplitN addr ":" 2)[0]? = some name) (c : Client) (n : String)
    (h : Event.lookup c n ∈ (d.Dial w network addr).trace) : c = d.c ∧ n = name := by
  obtain ⟨_, rest, htr, hrest⟩ := Dial_state w d network addr name hname
  rw [htr] at h
  rcases List.mem_append.1 h with h1 | h1
  · rcases getSet_trace w d name with h2 | h2
    · rw [h2] at h1; cases h1
    · rw [h2] at h1
      simpa using h1
  · have := lookupCount_pos_of_mem c n rest h1
    rw [hrest n] at this
    exact absurd this (Nat.lt_irrefl 0)

/-! ## Interleavings of `getSet` -/

theorem step_phase_other (name : String) (σ : Sys) (i j : Nat) (w : World) (h : j ≠ i) :
    (σ.step name i w).phase j = σ.phase j := by
  cases hp : σ.phase i with
  | start =>
    by_cases hm : mapIndex σ.d.sets name = none <;> simp [Sys.step, hp, hm, h]
  | waiting => simp [Sys.step, hp, h]
  | returned set err => simp [Sys.step, hp]

theorem step_rank (name : String) (σ : Sys) (i : Nat) (w : World) :
    min 2 ((σ.phase i).rank + 1) ≤ ((σ.step name i w).phase i).rank := by
  cases hp : σ.phase i with
  | start =>
    by_cases hm : mapIndex σ.d.sets name = none <;> simp [Sys.step, hp, hm, Phase.rank]
  | waiting => simp [Sys.step, hp, Phase.rank]
  | returned set err => simp [Sys.step, hp, Phase.rank]

theorem run_rank (name : String) (sched : List (Nat × World)) (σ : Sys) (i : Nat) :
    min 2 ((σ.phase i).rank + (sched.map Prod.fst).count i) ≤
      ((Sys.run name σ sched).phase i).rank := by
  induction sched generalizing σ with
  | nil =>
    simp only [List.map_nil, List.count_nil, Nat.add_zero, Sys.run]
    exact Nat.min_le_right _ _
  | cons p rest ih =>
    obtain ⟨j, w⟩ := p
    have h1 := ih (σ.step name j w)
    simp only [Sys.run, List.map_cons, List.count_cons]
    by_cases hj : j = i
    · subst hj
      have h2 := step_rank name σ j w
      simp only [beq_self_eq_true, if_true]
      omega
    · rw [step_phase_other name σ j i w (fun e => hj e.symm)] at h1
      have hb : (j == i) = false := by simpa using hj
      simp only [hb, Bool.false_eq_true, if_false, Nat.add_zero]
      exact h1

theorem rank_two (p : Phase) (h : 2 ≤ p.rank) : ∃ set err, p = Phase.returned set err := by
  cases p with
  | start => simp [Phase.rank] at h
  | waiting => simp [Phase.rank] at h
  | returned set err => exact ⟨set, err, rfl⟩

/-- A goroutine that runs its two blocks with nobody in between does what the
sequential `getSet` does. -/
theorem step_step_getSet (name : String) (σ : Sys) (i : Nat) (w : World)
    (h : σ.phase i = Phase.start) :
    ((σ.step name i w).step name i w).d = (σ.d.getSet w name).d ∧
    ((σ.step name i w).step name i w).trace = σ.trace ++ (σ.d.getSet w name).trace ∧
    ((σ.step name i w).step name i w).phase i =
      Phase.returned (σ.d.getSet w name).set (σ.d.getSet w name).err := by
  by_cases hm : mapIndex σ.d.sets name = none
  · have h1 : σ.step name i w =
        { σ with phase := fun j => if j = i then Phase.waiting else σ.phase j } := by
      simp [Sys.step, h, hm]
    have hg : σ.d.getSet w name = σ.d.createSet w name := by
      simp [dialer.getSet, hm]
    rw [h1, hg]
    simp [Sys.step]
  · have h1 : σ.step name i w =
        { σ with phase := fun j =>
            if j = i then Phase.returned (mapIndex σ.d.sets name) none else σ.phase j } := by
      simp [Sys.step, h, hm]
    have hg : σ.d.getSet w name =
        { set := mapIndex σ.d.sets name, err := none, d := σ.d, trace := [] } := by
      simp [dialer.getSet, hm]
    rw [h1, hg]
    simp [Sys.step]

theorem init_inv (d : dialer) (name : String) (h : mapGet d.sets name = none) :
    (Sys.init d).Inv d.c name := by
  refine ⟨rfl, Or.inl ⟨h, rfl, ?_⟩⟩
  intro i set err hp
  cases hp

theorem step_inv (c : Client) (name : String) (σ : Sys) (i : Nat) (w : World)
    (hinv : σ.Inv c name) (hw : (w.NewServiceSet c name).2 = none) :
    (σ.step name i w).Inv c name := by
  obtain ⟨hc, hcase⟩ := hinv
  cases hp : σ.phase i with
  | start =>
    by_cases hm : mapIndex σ.d.sets name = none
    · have h1 : σ.step name i w =
          { σ with phase := fun j => if j = i then Phase.waiting else σ.phase j } := by
        simp [Sys.step, hp, hm]
      rw [h1]
      refine ⟨hc, ?_⟩
      rcases hcase with ⟨hg, hl, hr⟩ | ⟨v, hg, hl, hr⟩
      · refine Or.inl ⟨hg, hl, ?_⟩
        intro j set err hj
        by_cases hji : j = i
        · simp [hji] at hj
        · simp only [hji, if_false] at hj
          exact hr j set err hj
      · refine Or.inr ⟨v, hg, hl, ?_⟩
        intro j set err hj
        by_cases hji : j = i
        · simp [hji] at hj
        · simp only [hji, if_false] at hj
          exact hr j set err hj
    · have h1 : σ.step name i w =
          { σ with phase := fun j =>
              if j = i then Phase.returned (mapIndex σ.d.sets name) none else σ.phase j } := by
        simp [Sys.step, hp, hm]
      rw [h1]
      refine ⟨hc, ?_⟩
      rcases hcase with ⟨hg, _, _⟩ | ⟨v, hg, hl, hr⟩
      · exact absurd (by simp [mapIndex, hg]) hm
      · refine Or.inr ⟨v, hg, hl, ?_⟩
        intro j set err hj
        by_cases hji : j = i
        · simp only [hji, if_true, Phase.returned.injEq] at hj
          refine ⟨?_, hj.2.symm⟩
          rw [← hj.1]
          simp [mapIndex, hg]
        · simp only [hji, if_false] at hj
          exact hr j set err hj
  | waiting =>
    have h1 : σ.step name i w =
        { d := (σ.d.createSet w name).d,
          phase := fun j =>
            if j = i then Phase.returned (σ.d.createSet w name).set (σ.d.createSet w name).err
            else σ.phase j,
          trace := σ.trace ++ (σ.d.createSet w name).trace } := by
      simp [Sys.step, hp]
    rw [h1]
    rcases hcase with ⟨hg, hl, hr⟩ | ⟨v, hg, hl, hr⟩
    · have hw2 : (w.NewServiceSet σ.d.c name).2 = none := by rw [hc]; exact hw
      rw [createSet_miss_ok w σ.d name hg hw2]
      refine ⟨hc, Or.inr ⟨(w.NewServiceSet σ.d.c name).1, ?_, ?_, ?_⟩⟩
      · exact mapGet_append_single _ _ _ hg
      · show lookupCount name (σ.trace ++ [Event.lookup σ.d.c name]) = 1
        rw [lookupCount_append, hl]
        simp [lookupCount]
      · intro j set err hj
        by_cases hji : j = i
        · simp only [hji, if_true, Phase.returned.injEq] at hj
          exact ⟨hj.1.symm, hj.2.symm⟩
        · simp only [hji, if_false] at hj
          exact absurd hj (hr j set err)
    · rw [createSet_hit w σ.d name v hg]
      refine ⟨hc, Or.inr ⟨v, hg, ?_, ?_⟩⟩
      · show lookupCount name (σ.trace ++ []) = 1
        rw [List.append_nil]
        exact hl
      · intro j set err hj
        by_cases hji : j = i
        · simp only [hji, if_true, Phase.returned.injEq] at hj
          exact ⟨hj.1.symm, hj.2.symm⟩
        · simp only [hji, if_false] at hj
          exact hr j set err hj
  | returned set0 err0 =>
    have h1 : σ.step name i w = σ := by
      simp [Sys.step, hp]
    rw [h1]
    exact ⟨hc, hcase⟩

theorem run_inv (c : Client) (name : String) (sched : List (Nat × World)) (σ : Sys)
    (hinv : σ.Inv c name) (hw : ∀ p ∈ sched, (p.2.NewServiceSet c name).2 = none) :
    (Sys.run name σ sched).Inv c name := by
  induction sched generalizing σ with
  | nil => exact hinv
  | cons p rest ih =>
    obtain ⟨j, w⟩ := p
    exact ih _ (step_inv c name σ j w hinv (hw (j, w) (List.mem_cons_self _ _)))
      (fun q hq => hw q (List.mem_cons_of_mem _ hq))

/-! ## The properties of the dialer -/

/-- C1: when the service name of the target resolves, from the cache or by a
fresh lookup, to a set whose address snapshot is empty, `Dial` returns exactly
`(nil, ErrNoServices)` and the connector is not invoked. -/
theorem C1_empty_snapshot_no_services (w : World) (d : dialer) (network addr name : String)
    (s : Nat) (hname : (SplitN addr ":" 2)[0]? = some name)
    (hset : (d.getSet w name).set = some s) (herr : (d.getSet w name).err = none)
    (hempty : w.Addrs s = []) :
    (d.Dial w network addr).out = Outcome.ret none (some Error.ErrNoServices) ∧
    connects (d.Dial w network addr).trace = [] := by
  rw [Dial_empty w d network addr name s hname hset herr hempty]
  refine ⟨rfl, ?_⟩
  show connects ((d.getSet w name).trace ++ [Event.addrs s]) = []
  rw [connects_append, connects_getSet]
  rfl

/-- Evaluation of C1: a new dialer, the target `svc:8080` and a registry whose set is empty. -/
theorem C1_empty_snapshot_no_services_witness :
    ((SplitN "svc:8080" ":" 2)[0]? = some "svc" ∧ worldEmpty.Addrs 7 = []) ∧
    (((newDialer 0 none).Dial worldEmpty "tcp" "svc:8080").out =
        Outcome.ret none (some Error.ErrNoServices) ∧
      connects ((newDialer 0 none).Dial worldEmpty "tcp" "svc:8080").trace = []) :=
  ⟨⟨by decide, by decide⟩,
    C1_empty_snapshot_no_services worldEmpty (newDialer 0 none) "tcp" "svc:8080" "svc" 7
      (by decide) (by decide) (by decide) (by decide)⟩

/-- C2: for every draw of the random source, when the resolved set has a
non-empty snapshot, `rand.Intn` yields an index below the length of the
snapshot, `Dial` does not panic, and it invokes the connector exactly once,
with the network of the caller and with the element of the snapshot at that
index. -/
theorem C2_connector_gets_snapshot_member (w : World) (d : dialer)
    (network addr name : String) (s : Nat)
    (hname : (SplitN addr ":" 2)[0]? = some name)
    (hset : (d.getSet w name).set = some s) (herr : (d.getSet w name).err = none)
    (hne : w.Addrs s ≠ []) :
    ∃ i a, Intn w.draw (w.Addrs s).length = some i ∧ i < (w.Addrs s).length ∧
      (w.Addrs s)[i]? = some a ∧ a ∈ w.Addrs s ∧
      connects (d.Dial w network addr).trace = [Event.connect d.dial network a] ∧
      (d.Dial w network addr).out ≠ Outcome.panic := by
  have hlen : (w.Addrs s).length ≠ 0 := Nat.pos_iff_ne_zero.1 (List.length_pos.2 hne)
  refine ⟨w.draw % (w.Addrs s).length,
    (w.Addrs s).get ⟨w.draw % (w.Addrs s).length, draw_lt w s hne⟩, ?_, draw_lt w s hne, ?_,
    List.get_mem _ _ _, ?_, ?_⟩
  · simp [Intn, hlen]
  · simp [List.getElem?_eq_getElem (draw_lt w s hne)]
  · rw [Dial_connect w d network addr name s hname hset herr hne]
    show connects ((d.getSet w name).trace ++ _) = _
    rw [connects_append, connects_getSet]
    rfl
  · rw [Dial_connect w d network addr name s hname hset herr hne]
    intro h
    cases h

/-- Evaluation of C2: a new dialer, a set of two addresses and the draw `5`, which selects the second address. -/
theorem C2_connector_gets_snapshot_member_witness :
    (worldTwo.Addrs 7 ≠ []) ∧
    ∃ i a, Intn worldTwo.draw (worldTwo.Addrs 7).length = some i ∧
      i < (worldTwo.Addrs 7).length ∧
      (worldTwo.Addrs 7)[i]? = some a ∧ a ∈ worldTwo.Addrs 7 ∧
      connects ((newDialer 0 none).Dial worldTwo "tcp" "svc:8080").trace =
        [Event.connect (newDialer 0 none).dial "tcp" a] ∧
      ((newDialer 0 none).Dial worldTwo "tcp" "svc:8080").out ≠ Outcome.panic :=
  ⟨by decide,
    C2_connector_gets_snapshot_member worldTwo (newDialer 0 none) "tcp" "svc:8080" "svc" 7
      (by decide) (by decide) (by decide) (by decide)⟩

/-- C3: for every target the split succeeds and the name `Dial` resolves is the
part of the target before its first colon: it has no colon, and either the
target has no colon and is the name, or the target is the name, a colon and a
rest. For every dialer and every world, `Dial` on the target is `Dial` on that
name, it resolves through `getSet` of that name (same dialer afterwards, same
calls, followed by calls that are not lookups), every registry lookup it makes
is for that name, and when the name has no cache entry its first call is the
lookup of that name; so it is for a new dialer. The targets `svc:8080` and
`svc` give the name `svc`; the empty target and a target that starts with a
colon give the empty name. -/
theorem C3_name_is_target_before_first_colon :
    (∀ addr : String, ∃ name : String, (SplitN addr ":" 2)[0]? = some name ∧
      ':' ∉ name.data ∧
      ((':' ∉ addr.data ∧ name = addr) ∨ ∃ rest : String, addr = name ++ ":" ++ rest) ∧
      (∀ (w : World) (c : Client) (f : Option DialFunc) (network : String),
        ((newDialer c f).Dial w network addr).trace.head? = some (Event.lookup c name)) ∧
      (∀ (w : World) (d : dialer) (network : String),
        d.Dial w network addr = d.Dial w network name ∧
        (d.Dial w network addr).d = (d.getSet w name).d ∧
        (∃ rest, (d.Dial w network addr).trace = (d.getSet w name).trace ++ rest ∧
          ∀ n, lookupCount n rest = 0) ∧
        (∀ (c : Client) (n : String), Event.lookup c n ∈ (d.Dial w network addr).trace →
          c = d.c ∧ n = name) ∧
        (mapGet d.sets name = none →
          (d.Dial w network addr).trace.head? = some (Event.lookup d.c name)))) ∧
    (SplitN "svc:8080" ":" 2)[0]? = some "svc" ∧
    (SplitN "svc" ":" 2)[0]? = some "svc" ∧
    (SplitN "" ":" 2)[0]? = some "" ∧
    (SplitN ":80" ":" 2)[0]? = some "" := by
  refine ⟨?_, by decide, by decide, by decide, by decide⟩
  intro addr
  obtain ⟨name, hname, hno, hsplit⟩ := SplitN_colon_head addr
  have hhead : ∀ (w : World) (d : dialer) (network : String), mapGet d.sets name = none →
      (d.Dial w network addr).trace.head? = some (Event.lookup d.c name) := by
    intro w d network hm
    obtain ⟨_, rest, htr, _⟩ := Dial_state w d network addr name hname
    rw [htr, getSet_trace_miss w d name hm]
    rfl
  refine ⟨name, hname, hno, hsplit, ?_, ?_⟩
  · intro w c f network
    exact hhead w (newDialer c f) network rfl
  · intro w d network
    exact ⟨Dial_depends_on_name w d network addr name hname hno,
      (Dial_state w d network addr name hname).1,
      (Dial_state w d network addr name hname).2,
      fun c n h => Dial_lookups w d network addr name hname c n h,
      hhead w d network⟩

/-- C4: after a `Dial` whose registry lookup for the name returned the set `s`,
and after any further sequence of `Dial` calls, a `Dial` for a target with the
same name makes no registry lookup, gets `s` from `getSet` and reads the
addresses of `s`; over the whole run the registry was asked for the name
once. -/
theorem C4_resolved_name_is_looked_up_once (w1 : World) (d : dialer)
    (net1 addr1 name : String) (s : Nat) (calls : List (World × String × String))
    (w2 : World) (net2 addr2 : String)
    (hname1 : (SplitN addr1 ":" 2)[0]? = some name)
    (hname2 : (SplitN addr2 ":" 2)[0]? = some name)
    (hmiss : mapGet d.sets name = none)
    (hlook : w1.NewServiceSet d.c name = (some s, none)) :
    (runDials (d.Dial w1 net1 addr1).d calls).1.getSet w2 name =
      { set := some s, err := none, d := (runDials (d.Dial w1 net1 addr1).d calls).1,
        trace := [] } ∧
    lookupCount name ((runDials (d.Dial w1 net1 addr1).d calls).1.Dial w2 net2 addr2).trace = 0 ∧
    ((runDials (d.Dial w1 net1 addr1).d calls).1.Dial w2 net2 addr2).trace.head? =
      some (Event.addrs s) ∧
    lookupCount name
      ((d.Dial w1 net1 addr1).trace ++ (runDials (d.Dial w1 net1 addr1).d calls).2 ++
        ((runDials (d.Dial w1 net1 addr1).d calls).1.Dial w2 net2 addr2).trace) = 1 := by
  obtain ⟨_, _, h1, hc1⟩ := Dial_first w1 d net1 addr1 name s hname1 hmiss hlook
  have h2 := runDials_preserves calls _ name _ h1
  have hg := getSet_cached w2 _ name s h2
  have hz := Dial_no_lookup w2 _ net2 addr2 name _ h2
  refine ⟨hg, hz, ?_, ?_⟩
  · obtain ⟨rest, hr⟩ := Dial_reads_set w2 _ net2 addr2 name s hname2
      (by rw [hg]) (by rw [hg])
    rw [hr, hg]
    rfl
  · rw [lookupCount_append, lookupCount_append, hc1, hz, runDials_no_lookup calls _ name _ h1]

/-- Evaluation of C4: a first `Dial` for `svc:8080`, two further calls, then a `Dial` for `svc` in a world whose registry would fail. -/
theorem C4_resolved_name_is_looked_up_once_witness :
    (mapGet (newDialer 0 none).sets "svc" = none ∧
      worldEmpty.NewServiceSet (newDialer 0 none).c "svc" = (some 7, none)) ∧
    ((runDials ((newDialer 0 none).Dial worldEmpty "tcp" "svc:8080").d
        [(worldDown, "tcp", "other:1"), (worldTwo, "tcp", "svc:9")]).1.getSet worldOne "svc" =
      { set := some 7, err := none,
        d := (runDials ((newDialer 0 none).Dial worldEmpty "tcp" "svc:8080").d
          [(worldDown, "tcp", "other:1"), (worldTwo, "tcp", "svc:9")]).1,
        trace := [] } ∧
    lookupCount "svc"
      ((runDials ((newDialer 0 none).Dial worldEmpty "tcp" "svc:8080").d
        [(worldDown, "tcp", "other:1"), (worldTwo, "tcp", "svc:9")]).1.Dial
          worldOne "tcp" "svc").trace = 0 ∧
    ((runDials ((newDialer 0 none).Dial worldEmpty "tcp" "svc:8080").d
        [(worldDown, "tcp", "other:1"), (worldTwo, "tcp", "svc:9")]).1.Dial
          worldOne "tcp" "svc").trace.head? = some (Event.addrs 7) ∧
    lookupCount "svc"
      (((newDialer 0 none).Dial worldEmpty "tcp" "svc:8080").trace ++
        (runDials ((newDialer 0 none).Dial worldEmpty "tcp" "svc:8080").d
          [(worldDown, "tcp", "other:1"), (worldTwo, "tcp", "svc:9")]).2 ++
        ((runDials ((newDialer 0 none).Dial worldEmpty "tcp" "svc:8080").d
          [(worldDown, "tcp", "other:1"), (worldTwo, "tcp", "svc:9")]).1.Dial
            worldOne "tcp" "svc").trace) = 1) :=
  ⟨⟨by decide, by decide⟩,
    C4_resolved_name_is_looked_up_once worldEmpty (newDialer 0 none) "tcp" "svc:8080" "svc" 7
      [(worldDown, "tcp", "other:1"), (worldTwo, "tcp", "svc:9")] worldOne "tcp" "svc"
      (by decide) (by decide) (by decide) (by decide)⟩

/-- C5: when the name is not in the cache and the registry lookup fails with
the error `e`, `Dial` returns exactly `(nil, e)`, asks the registry once, does
not invoke the connector and leaves the dialer as it was; a following `Dial`
for the same name, in any world, asks the registry again. -/
theorem C5_lookup_failure_is_not_cached (w : World) (d : dialer)
    (network addr name : String) (e : Error)
    (hname : (SplitN addr ":" 2)[0]? = some name)
    (hmiss : mapGet d.sets name = none)
    (hfail : (w.NewServiceSet d.c name).2 = some e) :
    (d.Dial w network addr).out = Outcome.ret none (some e) ∧
    (d.Dial w network addr).trace = [Event.lookup d.c name] ∧
    connects (d.Dial w network addr).trace = [] ∧
    (d.Dial w network addr).d = d ∧
    ∀ (w2 : World) (net2 addr2 : String), (SplitN addr2 ":" 2)[0]? = some name →
      lookupCount name ((d.Dial w network addr).d.Dial w2 net2 addr2).trace = 1 := by
  have hg := (getSet_miss w d name hmiss).trans (createSet_miss_err w d name e hmiss hfail)
  have hD : d.Dial w network addr =
      { out := Outcome.ret none (some e), d := d, trace := [Event.lookup d.c name] } := by
    simp [dialer.Dial, hname, hg]
  rw [hD]
  refine ⟨rfl, rfl, rfl, rfl, ?_⟩
  intro w2 net2 addr2 hname2
  obtain ⟨_, rest, htr, hrest⟩ := Dial_state w2 d net2 addr2 name hname2
  show lookupCount name (d.Dial w2 net2 addr2).trace = 1
  rw [htr, lookupCount_append, hrest, getSet_trace_miss w2 d name hmiss]
  simp [lookupCount]

/-- Evaluation of C5: a new dialer and a registry that fails with the error of code `5`. -/
theorem C5_lookup_failure_is_not_cached_witness :
    (mapGet (newDialer 0 none).sets "svc" = none ∧
      (worldDown.NewServiceSet (newDialer 0 none).c "svc").2 = some (Error.other 5)) ∧
    (((newDialer 0 none).Dial worldDown "tcp" "svc:8080").out =
        Outcome.ret none (some (Error.other 5)) ∧
      ((newDialer 0 none).Dial worldDown "tcp" "svc:8080").trace =
        [Event.lookup (newDialer 0 none).c "svc"] ∧
      connects ((newDialer 0 none).Dial worldDown "tcp" "svc:8080").trace = [] ∧
      ((newDialer 0 none).Dial worldDown "tcp" "svc:8080").d = newDialer 0 none ∧
      ∀ (w2 : World) (net2 addr2 : String), (SplitN addr2 ":" 2)[0]? = some "svc" →
        lookupCount "svc"
          (((newDialer 0 none).Dial worldDown "tcp" "svc:8080").d.Dial w2 net2 addr2).trace = 1) :=
  ⟨⟨by decide, by decide⟩,
    C5_lookup_failure_is_not_cached worldDown (newDialer 0 none) "tcp" "svc:8080" "svc"
      (Error.other 5) (by decide) (by decide) (by decide)⟩

/-- C6: when resolution yields a set with a non-empty snapshot, `Dial` returns
the pair the connector returned for `(network, selected address)`: the error
of the connector when it fails, its connection and no error when it
succeeds. -/
theorem C6_connector_result_is_returned (w : World) (d : dialer)
    (network addr name : String) (s : Nat)
    (hname : (SplitN addr ":" 2)[0]? = some name)
    (hset : (d.getSet w name).set = some s) (herr : (d.getSet w name).err = none)
    (hne : w.Addrs s ≠ []) :
    ∃ i a, Intn w.draw (w.Addrs s).length = some i ∧ (w.Addrs s)[i]? = some a ∧
      (d.Dial w network addr).out =
        Outcome.ret (w.call d.dial network a).1 (w.call d.dial network a).2 ∧
      (∀ conn e, w.call d.dial network a = (conn, some e) →
        (d.Dial w network addr).out = Outcome.ret conn (some e)) ∧
      (∀ conn, w.call d.dial network a = (some conn, none) →
        (d.Dial w network addr).out = Outcome.ret (some conn) none) := by
  have hlen : (w.Addrs s).length ≠ 0 := Nat.pos_iff_ne_zero.1 (List.length_pos.2 hne)
  refine ⟨w.draw % (w.Addrs s).length,
    (w.Addrs s).get ⟨w.draw % (w.Addrs s).length, draw_lt w s hne⟩, ?_, ?_, ?_, ?_, ?_⟩
  · simp [Intn, hlen]
  · simp [List.getElem?_eq_getElem (draw_lt w s hne)]
  · rw [Dial_connect w d network addr name s hname hset herr hne]
  · intro conn e hc
    rw [Dial_connect w d network addr name s hname hset herr hne, hc]
  · intro conn hc
    rw [Dial_connect w d network addr name s hname hset herr hne, hc]

/-- Evaluation of C6: a dialer with the caller-supplied connector `4` and a set of two addresses. -/
theorem C6_connector_result_is_returned_witness :
    (worldTwo.Addrs 7 ≠ []) ∧
    ∃ i a, Intn worldTwo.draw (worldTwo.Addrs 7).length = some i ∧
      (worldTwo.Addrs 7)[i]? = some a ∧
      ((newDialer 0 (some (DialFunc.fn 4))).Dial worldTwo "tcp" "svc:8080").out =
        Outcome.ret (worldTwo.call (newDialer 0 (some (DialFunc.fn 4))).dial "tcp" a).1
          (worldTwo.call (newDialer 0 (some (DialFunc.fn 4))).dial "tcp" a).2 ∧
      (∀ conn e, worldTwo.call (newDialer 0 (some (DialFunc.fn 4))).dial "tcp" a =
          (conn, some e) →
        ((newDialer 0 (some (DialFunc.fn 4))).Dial worldTwo "tcp" "svc:8080").out =
          Outcome.ret conn (some e)) ∧
      (∀ conn, worldTwo.call (newDialer 0 (some (DialFunc.fn 4))).dial "tcp" a =
          (some conn, none) →
        ((newDialer 0 (some (DialFunc.fn 4))).Dial worldTwo "tcp" "svc:8080").out =
          Outcome.ret (some conn) none) :=
  ⟨by decide,
    C6_connector_result_is_returned worldTwo (newDialer 0 (some (DialFunc.fn 4))) "tcp"
      "svc:8080" "svc" 7 (by decide) (by decide) (by decide) (by decide)⟩

/-- C7: the snapshot is read on every call. When a first `Dial` looks the name
up, gets the set `s` and finds it empty, it fails with `ErrNoServices`; when
`s` afterwards reports the single address `a`, the same `Dial` on the
resulting dialer, for every draw of the random source, makes no registry
lookup, invokes the connector exactly with `(network, a)` and returns the
result of the connector, hence no error when the connector succeeds. -/
theorem C7_snapshot_is_read_on_every_dial (w1 w2 : World) (d : dialer)
    (network addr name a : String) (s : Nat)
    (hname : (SplitN addr ":" 2)[0]? = some name)
    (hmiss : mapGet d.sets name = none)
    (hlook : w1.NewServiceSet d.c name = (some s, none))
    (hempty : w1.Addrs s = []) (hone : w2.Addrs s = [a]) :
    (d.Dial w1 network addr).out = Outcome.ret none (some Error.ErrNoServices) ∧
    ((d.Dial w1 network addr).d.Dial w2 network addr).trace =
      [Event.addrs s, Event.intn 1, Event.connect d.dial network a] ∧
    ((d.Dial w1 network addr).d.Dial w2 network addr).out =
      Outcome.ret (w2.call d.dial network a).1 (w2.call d.dial network a).2 ∧
    (∀ conn, w2.call d.dial network a = (some conn, none) →
      ((d.Dial w1 network addr).d.Dial w2 network addr).out = Outcome.ret (some conn) none) := by
  obtain ⟨hs1, he1, hc, _⟩ := Dial_first w1 d network addr name s hname hmiss hlook
  have hg := getSet_cached w2 _ name s hc
  have hne : w2.Addrs s ≠ [] := by rw [hone]; simp
  have ha : (w2.Addrs s).get ⟨w2.draw % (w2.Addrs s).length, draw_lt w2 s hne⟩ = a := by
    have hlt := draw_lt w2 s hne
    have hz : w2.draw % (w2.Addrs s).length = 0 := by
      rw [hone] at hlt ⊢
      simp only [List.length_singleton] at hlt ⊢
      omega
    simp [List.get_eq_getElem, hz, hone]
  have hD := Dial_connect w2 (d.Dial w1 network addr).d network addr name s hname
    (by rw [hg]) (by rw [hg]) hne
  rw [ha, hg, (Dial_client w1 d network addr).2] at hD
  have hlen : (w2.Addrs s).length = 1 := by rw [hone]; rfl
  rw [hlen] at hD
  refine ⟨?_, ?_, ?_, ?_⟩
  · rw [Dial_empty w1 d network addr name s hname hs1 he1 hempty]
  · rw [hD]
    rfl
  · rw [hD]
  · intro conn hcall
    rw [hD, hcall]

/-- Evaluation of C7: the scenario of `TestHTTPClient`, the target `httpclient:80` before and after an address is registered. -/
theorem C7_snapshot_is_read_on_every_dial_witness :
    (mapGet (newDialer 0 none).sets "httpclient" = none ∧ worldEmpty.Addrs 7 = [] ∧
      worldOne.Addrs 7 = ["127.0.0.1:4000"]) ∧
    (((newDialer 0 none).Dial worldEmpty "tcp" "httpclient:80").out =
        Outcome.ret none (some Error.ErrNoServices) ∧
      (((newDialer 0 none).Dial worldEmpty "tcp" "httpclient:80").d.Dial
          worldOne "tcp" "httpclient:80").trace =
        [Event.addrs 7, Event.intn 1,
          Event.connect (newDialer 0 none).dial "tcp" "127.0.0.1:4000"] ∧
      (((newDialer 0 none).Dial worldEmpty "tcp" "httpclient:80").d.Dial
          worldOne "tcp" "httpclient:80").out =
        Outcome.ret (worldOne.call (newDialer 0 none).dial "tcp" "127.0.0.1:4000").1
          (worldOne.call (newDialer 0 none).dial "tcp" "127.0.0.1:4000").2 ∧
      (∀ conn, worldOne.call (newDialer 0 none).dial "tcp" "127.0.0.1:4000" =
          (some conn, none) →
        (((newDialer 0 none).Dial worldEmpty "tcp" "httpclient:80").d.Dial
          worldOne "tcp" "httpclient:80").out = Outcome.ret (some conn) none)) :=
  ⟨⟨by decide, by decide, by decide⟩,
    C7_snapshot_is_read_on_every_dial worldEmpty worldOne (newDialer 0 none) "tcp"
      "httpclient:80" "httpclient" "127.0.0.1:4000" 7
      (by decide) (by decide) (by decide) (by decide) (by decide)⟩

/-- C8: in every dialer reached from a new dialer by a sequence of `Dial`
calls, one more `Dial`, whatever its target and its world, keeps every cache
entry under its name with its set, and either leaves the cache as it was or
adds one entry, under the name split from its own target, a name that had no
entry. -/
theorem C8_cache_entries_are_permanent (c : Client) (f : Option DialFunc)
    (calls : List (World × String × String)) (w : World) (network addr : String) :
    (∀ (k : String) (v : ServiceSet),
      mapGet (runDials (newDialer c f) calls).1.sets k = some v →
      mapGet ((runDials (newDialer c f) calls).1.Dial w network addr).d.sets k = some v) ∧
    (((runDials (newDialer c f) calls).1.Dial w network addr).d.sets =
        (runDials (newDialer c f) calls).1.sets ∨
      ∃ (name : String) (v : ServiceSet), (SplitN addr ":" 2)[0]? = some name ∧
        mapGet (runDials (newDialer c f) calls).1.sets name = none ∧
        ((runDials (newDialer c f) calls).1.Dial w network addr).d.sets =
          (runDials (newDialer c f) calls).1.sets ++ [(name, v)]) := by
  refine ⟨fun k v h => Dial_preserves w _ network addr k v h, ?_⟩
  obtain ⟨name, hname, _⟩ := SplitN_colon_head addr
  rw [(Dial_state w _ network addr name hname).1]
  rcases getSet_sets w (runDials (newDialer c f) calls).1 name with h | ⟨hm, v, h⟩
  · exact Or.inl (by rw [h])
  · exact Or.inr ⟨name, v, hname, hm, by rw [h]⟩

/-- C10: when the cache holds an entry for the name at the time `createSet`
runs, `createSet` returns that entry with no error, makes no call to the
registry and leaves the dialer unchanged. -/
theorem C10_createSet_rechecks_cache (w : World) (d : dialer) (name : String)
    (set : ServiceSet) (h : mapGet d.sets name = some set) :
    d.createSet w name = { set := set, err := none, d := d, trace := [] } :=
  createSet_hit w d name set h

/-- Evaluation of C10: `createSet` on a dialer that already holds the set `7` for `svc`, in a world whose registry would fail. -/
theorem C10_createSet_rechecks_cache_witness :
    mapGet ((newDialer 0 none).Dial worldEmpty "tcp" "svc:8080").d.sets "svc" = some (some 7) ∧
    ((newDialer 0 none).Dial worldEmpty "tcp" "svc:8080").d.createSet worldDown "svc" =
      { set := some 7, err := none,
        d := ((newDialer 0 none).Dial worldEmpty "tcp" "svc:8080").d, trace := [] } :=
  ⟨by decide,
    C10_createSet_rechecks_cache worldDown
      ((newDialer 0 none).Dial worldEmpty "tcp" "svc:8080").d "svc" (some 7) (by decide)⟩

/-- C9: under concurrent first use the registry is asked once. Goroutines
that call `getSet` for a name without cache entry are run in any interleaving
of their lock-protected blocks, in worlds whose lookup of the name succeeds;
`getSet` is the only place where `Dial` touches the cache or the registry.
Then the registry is asked for the name at most once; every goroutine that has
returned has no error, holds the set stored in the cache under the name, and
the registry has been asked exactly once; any two goroutines that have
returned hold the same set; and every goroutine scheduled at least twice has
returned. -/
theorem C9_concurrent_first_use_looks_up_once (d : dialer) (name : String)
    (sched : List (Nat × World))
    (hmiss : mapGet d.sets name = none)
    (hok : ∀ p ∈ sched, (p.2.NewServiceSet d.c name).2 = none) :
    lookupCount name (Sys.run name (Sys.init d) sched).trace ≤ 1 ∧
    (∀ (i : Nat) (set : ServiceSet) (err : Option Error),
      (Sys.run name (Sys.init d) sched).phase i = Phase.returned set err →
      err = none ∧ lookupCount name (Sys.run name (Sys.init d) sched).trace = 1 ∧
        mapGet (Sys.run name (Sys.init d) sched).d.sets name = some set) ∧
    (∀ (i j : Nat) (s1 s2 : ServiceSet) (e1 e2 : Option Error),
      (Sys.run name (Sys.init d) sched).phase i = Phase.returned s1 e1 →
      (Sys.run name (Sys.init d) sched).phase j = Phase.returned s2 e2 → s1 = s2) ∧
    (∀ i : Nat, 2 ≤ (sched.map Prod.fst).count i →
      ∃ set, (Sys.run name (Sys.init d) sched).phase i = Phase.returned set none ∧
        lookupCount name (Sys.run name (Sys.init d) sched).trace = 1) := by
  have hinv := run_inv d.c name sched (Sys.init d) (init_inv d name hmiss) hok
  obtain ⟨_, hcase⟩ := hinv
  have hret : ∀ (i : Nat) (set : ServiceSet) (err : Option Error),
      (Sys.run name (Sys.init d) sched).phase i = Phase.returned set err →
      err = none ∧ lookupCount name (Sys.run name (Sys.init d) sched).trace = 1 ∧
        mapGet (Sys.run name (Sys.init d) sched).d.sets name = some set := by
    intro i set err hp
    rcases hcase with ⟨_, _, hr⟩ | ⟨v, hg, hl, hr⟩
    · exact absurd hp (hr i set err)
    · obtain ⟨h1, h2⟩ := hr i set err hp
      rw [h1]
      exact ⟨h2, hl, hg⟩
  refine ⟨?_, hret, ?_, ?_⟩
  · rcases hcase with ⟨_, hl, _⟩ | ⟨v, _, hl, _⟩
    · rw [hl]
      exact Nat.zero_le 1
    · rw [hl]
  · intro i j s1 s2 e1 e2 h1 h2
    have g1 := (hret i s1 e1 h1).2.2
    have g2 := (hret j s2 e2 h2).2.2
    rw [g1] at g2
    exact Option.some.inj g2
  · intro i hi
    have hr := run_rank name sched (Sys.init d) i
    have h2 : 2 ≤ ((Sys.run name (Sys.init d) sched).phase i).rank := by
      have h0 : ((Sys.init d).phase i).rank = 0 := rfl
      rw [h0] at hr
      omega
    obtain ⟨set, err, hp⟩ := rank_two _ h2
    obtain ⟨he, hl, _⟩ := hret i set err hp
    rw [he] at hp
    exact ⟨set, hp, hl⟩

/-- Evaluation of C9: two goroutines on a new dialer both miss in the read
section and then both run `createSet`; the registry is asked once and both
return the set `7`. -/
theorem C9_concurrent_first_use_looks_up_once_witness :
    (mapGet (newDialer 0 none).sets "svc" = none ∧
      (Sys.run "svc" (Sys.init (newDialer 0 none))
        [(0, worldEmpty), (1, worldEmpty), (0, worldEmpty), (1, worldTwo)]).trace =
        [Event.lookup 0 "svc"] ∧
      (Sys.run "svc" (Sys.init (newDialer 0 none))
        [(0, worldEmpty), (1, worldEmpty), (0, worldEmpty), (1, worldTwo)]).phase 0 =
        Phase.returned (some 7) none ∧
      (Sys.run "svc" (Sys.init (newDialer 0 none))
        [(0, worldEmpty), (1, worldEmpty), (0, worldEmpty), (1, worldTwo)]).phase 1 =
        Phase.returned (some 7) none) ∧
    (lookupCount "svc" (Sys.run "svc" (Sys.init (newDialer 0 none))
        [(0, worldEmpty), (1, worldEmpty), (0, worldEmpty), (1, worldTwo)]).trace ≤ 1 ∧
    (∀ (i : Nat) (set : ServiceSet) (err : Option Error),
      (Sys.run "svc" (Sys.init (newDialer 0 none))
        [(0, worldEmpty), (1, worldEmpty), (0, worldEmpty), (1, worldTwo)]).phase i =
          Phase.returned set err →
      err = none ∧
        lookupCount "svc" (Sys.run "svc" (Sys.init (newDialer 0 none))
          [(0, worldEmpty), (1, worldEmpty), (0, worldEmpty), (1, worldTwo)]).trace = 1 ∧
        mapGet (Sys.run "svc" (Sys.init (newDialer 0 none))
          [(0, worldEmpty), (1, worldEmpty), (0, worldEmpty), (1, worldTwo)]).d.sets "svc" =
            some set) ∧
    (∀ (i j : Nat) (s1 s2 : ServiceSet) (e1 e2 : Option Error),
      (Sys.run "svc" (Sys.init (newDialer 0 none))
        [(0, worldEmpty), (1, worldEmpty), (0, worldEmpty), (1, worldTwo)]).phase i =
          Phase.returned s1 e1 →
      (Sys.run "svc" (Sys.init (newDialer 0 none))
        [(0, worldEmpty), (1, worldEmpty), (0, worldEmpty), (1, worldTwo)]).phase j =
          Phase.returned s2 e2 → s1 = s2) ∧
    (∀ i : Nat,
      2 ≤ (([(0, worldEmpty), (1, worldEmpty), (0, worldEmpty), (1, worldTwo)] :
        List (Nat × World)).map Prod.fst).count i →
      ∃ set, (Sys.run "svc" (Sys.init (newDialer 0 none))
          [(0, worldEmpty), (1, worldEmpty), (0, worldEmpty), (1, worldTwo)]).phase i =
            Phase.returned set none ∧
        lookupCount "svc" (Sys.run "svc" (Sys.init (newDialer 0 none))
          [(0, worldEmpty), (1, worldEmpty), (0, worldEmpty), (1, worldTwo)]).trace = 1)) :=
  ⟨⟨by decide, by decide, by decide, by decide⟩,
    C9_concurrent_first_use_looks_up_once (newDialer 0 none) "svc"
      [(0, worldEmpty), (1, worldEmpty), (0, worldEmpty), (1, worldTwo)]
      (by decide) (by simp [worldEmpty, worldTwo])⟩

end Discoverd
